import Mathlib

/-!
Verification of the Glow-style flow layers in `network/module.py`.

Modelling conventions:
* A rank-4 float tensor of shape (N, C, H, W) is a `Tensor4`: four shape
  fields plus a total data function `ℕ → ℕ → ℕ → ℕ → ℝ`.  Float32 arithmetic
  is idealized as real arithmetic; view/permute reshapes become explicit
  index arithmetic on the data function.
* The per-batch-element log-determinant accumulator (`logdet`) is
  `Option (ℕ → ℝ)` (`none` models Python `None`).
* Python assertions and runtime type errors are modelled by `Option`-valued
  results: `none` means the call raises.
* Module state that the source mutates (ActNorm parameters and latches) is
  threaded explicitly: `forward` takes and returns a `State`.  The PyTorch
  `self.training` flag is an externally-set argument of the call.
-/

noncomputable section

namespace Glow

/-- Rank-4 tensor (batch, channel, height, width) over idealized reals.
The data function is total; the shape fields record the valid index bounds. -/
@[ext]
structure Tensor4 where
  n : ℕ
  c : ℕ
  h : ℕ
  w : ℕ
  data : ℕ → ℕ → ℕ → ℕ → ℝ

/-- The optional per-batch-element log-determinant accumulator. -/
abbrev LogDet := Option (ℕ → ℝ)

/-- Modelled from the spec: `ops.reduce_mean(x, dim=[0, 2, 3], keepdim=True)`
from the repository's `misc.ops` module (not under `src/`): the mean over the
batch and both spatial dimensions, one value per channel. -/
def reduce_mean_023 (x : Tensor4) (ch : ℕ) : ℝ :=
  (∑ b ∈ Finset.range x.n, ∑ i ∈ Finset.range x.h, ∑ j ∈ Finset.range x.w,
      x.data b ch i j) / ((x.n * x.h * x.w : ℕ) : ℝ)

/-- Modelled from the spec: `ops.reduce_mean(x, keepdim=True)` from the
repository's `misc.ops` module (not under `src/`): the mean over all four
dimensions. -/
def reduce_mean_all (x : Tensor4) : ℝ :=
  (∑ b ∈ Finset.range x.n, ∑ ch ∈ Finset.range x.c, ∑ i ∈ Finset.range x.h,
      ∑ j ∈ Finset.range x.w, x.data b ch i j) / ((x.n * x.c * x.h * x.w : ℕ) : ℝ)

/-- Modelled from the spec: `ops.reduce_sum(tensor, dim=[1, 2, 3])` from the
repository's `misc.ops` module (not under `src/`): sum over every non-batch
axis, one scalar per batch element. -/
def reduce_sum_123 (x : Tensor4) (b : ℕ) : ℝ :=
  ∑ ch ∈ Finset.range x.c, ∑ i ∈ Finset.range x.h, ∑ j ∈ Finset.range x.w,
    x.data b ch i j

/-- Elementwise square `x ** 2`. -/
def squareT (x : Tensor4) : Tensor4 :=
  { x with data := fun b ch i j => (x.data b ch i j) ^ 2 }

namespace ActNorm

/-- The state of an `ActNorm` module: constructor configuration, the
`bias` / `logs` parameters (shape (1, C, 1, 1), stored per channel), and the
two one-shot initialization latches. -/
structure State where
  num_channels : ℕ
  scale : ℝ
  logscale_factor : ℝ
  batch_variance : Bool
  bias_inited : Bool
  logs_inited : Bool
  bias : ℕ → ℝ
  logs : ℕ → ℝ

/-- `ActNorm.__init__`: latches false, `bias` and `logs` zero-filled. -/
def init (num_channels : ℕ) (scale logscale_factor : ℝ) (batch_variance : Bool) :
    State :=
  { num_channels := num_channels
    scale := scale
    logscale_factor := logscale_factor
    batch_variance := batch_variance
    bias_inited := false
    logs_inited := false
    bias := fun _ => 0
    logs := fun _ => 0 }

/-- `ActNorm.initialize_bias`: in training mode, set
`bias := -reduce_mean(x, dim=[0,2,3])` and latch `bias_inited`; otherwise
return without touching the state (the latch is NOT set). -/
def initialize_bias (training : Bool) (s : State) (x : Tensor4) : State :=
  if training then
    { s with bias := fun ch => -(reduce_mean_023 x ch), bias_inited := true }
  else s

/-- `ActNorm.initialize_logs`: in training mode, set
`logs := log(scale / (sqrt(x_var) + 1e-6)) / logscale_factor` where `x_var`
is the mean of `x ** 2` (pooled over everything when `batch_variance`, else
per channel), and latch `logs_inited`; otherwise return without touching the
state. -/
def initialize_logs (training : Bool) (s : State) (x : Tensor4) : State :=
  if training then
    let x_var : ℕ → ℝ :=
      if s.batch_variance then fun _ => reduce_mean_all (squareT x)
      else fun ch => reduce_mean_023 (squareT x) ch
    { s with
      logs := fun ch =>
        Real.log (s.scale / (Real.sqrt (x_var ch) + 1e-6)) / s.logscale_factor
      logs_inited := true }
  else s

/-- `ActNorm.actnorm_center`: lazily initialize `bias` when the latch is
unset, then add the bias (forward) or subtract it (reverse). -/
def actnorm_center (training : Bool) (s : State) (x : Tensor4) (reverse : Bool) :
    State × Tensor4 :=
  let s1 := if s.bias_inited then s else initialize_bias training s x
  if reverse then
    (s1, { x with data := fun b ch i j => x.data b ch i j - s1.bias ch })
  else
    (s1, { x with data := fun b ch i j => x.data b ch i j + s1.bias ch })

/-- `ActNorm.actnorm_scale`: lazily initialize `logs` when the latch is
unset, scale by `exp(±logs * logscale_factor)`, and when the accumulator is
present add `sum(logs * logscale_factor) * H * W` (negated in reverse). -/
def actnorm_scale (training : Bool) (s : State) (x : Tensor4) (logdet : LogDet)
    (reverse : Bool) : State × Tensor4 × LogDet :=
  let s1 := if s.logs_inited then s else initialize_logs training s x
  let logsv : ℕ → ℝ := fun ch => s1.logs ch * s1.logscale_factor
  let y : Tensor4 :=
    if reverse then
      { x with data := fun b ch i j => x.data b ch i j * Real.exp (-(logsv ch)) }
    else
      { x with data := fun b ch i j => x.data b ch i j * Real.exp (logsv ch) }
  let logdet_factor : ℝ := (x.h : ℝ) * (x.w : ℝ)
  let dlogdet0 : ℝ := (∑ ch ∈ Finset.range s1.num_channels, logsv ch) * logdet_factor
  let dlogdet : ℝ := if reverse then -dlogdet0 else dlogdet0
  (s1, y, logdet.map (fun L => fun b => L b + dlogdet))

/-- `ActNorm.forward`: assert the channel count, then center-then-scale
(forward) or scale-then-center (reverse).  `none` models the assertion
failure on a channel mismatch. -/
def forward (training : Bool) (s : State) (x : Tensor4) (logdet : LogDet)
    (reverse : Bool) : Option (State × Tensor4 × LogDet) :=
  if x.c = s.num_channels then
    if reverse then
      let r := actnorm_scale training s x logdet true
      let p := actnorm_center training r.1 r.2.1 true
      some (p.1, p.2, r.2.2)
    else
      let p := actnorm_center training s x false
      let r := actnorm_scale training p.1 p.2 logdet false
      some (r.1, r.2.1, r.2.2)
  else none

end ActNorm

/-- Padding in `['SAME', 'VALID']` (`Conv2d.get_padding` argument). -/
inductive PaddingType where
  | SAME : PaddingType
  | VALID : PaddingType

/-- `Conv2d.get_padding`: `'SAME'` requires stride 1 and pads by `(k-1)//2`
per spatial axis; `'VALID'` pads zero.  `none` models the stride assertion
failure (the unsupported-padding-string assertion cannot fire: the type is
an enumeration here). -/
def get_padding (padding_type : PaddingType) (kernel_size : ℕ × ℕ) (stride : ℕ) :
    Option (ℕ × ℕ) :=
  match padding_type with
  | PaddingType.SAME =>
      if stride = 1 then some ((kernel_size.1 - 1) / 2, (kernel_size.2 - 1) / 2)
      else none
  | PaddingType.VALID => some (0, 0)

/-- Zero-padded read of `x` at padded coordinates (`F.conv2d` padding). -/
def padRead (x : Tensor4) (ph pw : ℕ) (b ch r s : ℕ) : ℝ :=
  if ph ≤ r ∧ r < x.h + ph ∧ pw ≤ s ∧ s < x.w + pw then
    x.data b ch (r - ph) (s - pw)
  else 0

/-- `F.conv2d` with stride 1: cross-correlation of the zero-padded input with
a `(cout, cin, kh, kw)` kernel plus a per-output-channel bias. -/
def conv2d (cin cout kh kw ph pw : ℕ) (weight : ℕ → ℕ → ℕ → ℕ → ℝ)
    (bias : ℕ → ℝ) (x : Tensor4) : Tensor4 :=
  { n := x.n
    c := cout
    h := x.h + 2 * ph + 1 - kh
    w := x.w + 2 * pw + 1 - kw
    data := fun b co i j =>
      bias co +
        ∑ ci ∈ Finset.range cin, ∑ a ∈ Finset.range kh, ∑ d ∈ Finset.range kw,
          weight co ci a d * padRead x ph pw b ci (i + a) (j + d) }

/-- `F.normalize(x, p=2, dim=0)` with its default `eps = 1e-12`: divide each
element by the (clamped) L2 norm taken along the batch axis. -/
def normalizeDim0 (x : Tensor4) : Tensor4 :=
  { x with data := fun b ch i j =>
      x.data b ch i j /
        max (Real.sqrt (∑ k ∈ Finset.range x.n, (x.data k ch i j) ^ 2)) 1e-12 }

/-- `F.normalize(x, p=2, dim=2)`: L2 normalization along the height axis. -/
def normalizeDim2 (x : Tensor4) : Tensor4 :=
  { x with data := fun b ch i j =>
      x.data b ch i j /
        max (Real.sqrt (∑ k ∈ Finset.range x.h, (x.data b ch k j) ^ 2)) 1e-12 }

/-- `F.normalize(x, p=2, dim=3)`: L2 normalization along the width axis. -/
def normalizeDim3 (x : Tensor4) : Tensor4 :=
  { x with data := fun b ch i j =>
      x.data b ch i j /
        max (Real.sqrt (∑ k ∈ Finset.range x.w, (x.data b ch i k) ^ 2)) 1e-12 }

namespace LinearZeros

/-- `LinearZeros` module state: the underlying `nn.Linear` weight/bias plus
the extra `logs` parameter and its factor. -/
structure State where
  in_features : ℕ
  out_features : ℕ
  weight : ℕ → ℕ → ℝ
  bias : ℕ → ℝ
  logs : ℕ → ℝ
  logscale_factor : ℝ

/-- `LinearZeros.__init__`: weight, bias and logs all zero-initialized,
default `logscale_factor = 3`. -/
def init (in_features out_features : ℕ) : State :=
  { in_features := in_features
    out_features := out_features
    weight := fun _ _ => 0
    bias := fun _ => 0
    logs := fun _ => 0
    logscale_factor := 3 }

/-- `LinearZeros.forward`: the affine map `x Wᵀ + b` post-multiplied by
`exp(logs * logscale_factor)`. -/
def forward (s : State) (x : ℕ → ℝ) : ℕ → ℝ := fun o =>
  (∑ i ∈ Finset.range s.in_features, s.weight o i * x i + s.bias o) *
    Real.exp (s.logs o * s.logscale_factor)

end LinearZeros

namespace Conv2dZeros

/-- `Conv2dZeros` module state: the underlying `nn.Conv2d` parameters plus
the extra `logs` parameter and its factor. -/
structure State where
  in_channels : ℕ
  out_channels : ℕ
  kh : ℕ
  kw : ℕ
  ph : ℕ
  pw : ℕ
  weight : ℕ → ℕ → ℕ → ℕ → ℝ
  bias : ℕ → ℝ
  logs : ℕ → ℝ
  logscale_factor : ℝ

/-- `Conv2dZeros.__init__` with the default arguments (3×3 kernel, stride 1,
`'SAME'` padding hence padding (1,1)): weight, bias and logs zero-filled,
`logscale_factor = 3`. -/
def init (in_channels out_channels : ℕ) : State :=
  { in_channels := in_channels
    out_channels := out_channels
    kh := 3
    kw := 3
    ph := 1
    pw := 1
    weight := fun _ _ _ _ => 0
    bias := fun _ => 0
    logs := fun _ => 0
    logscale_factor := 3 }

/-- `Conv2dZeros.forward`: the convolution output post-multiplied by
`exp(logs * logscale_factor)` (logs has shape (C,1,1): per channel). -/
def forward (s : State) (x : Tensor4) : Tensor4 :=
  let y := conv2d s.in_channels s.out_channels s.kh s.kw s.ph s.pw s.weight s.bias x
  { y with data := fun b ch i j =>
      y.data b ch i j * Real.exp (s.logs ch * s.logscale_factor) }

end Conv2dZeros

namespace Conv2dW

/-- State of the wrapper class `Conv2d` (a subclass of `nn.Conv2d`): the
convolution parameters, the two option flags, and the trailing ActNorm
submodule used when `do_actnorm` is set. -/
structure State where
  in_channels : ℕ
  out_channels : ℕ
  kh : ℕ
  kw : ℕ
  ph : ℕ
  pw : ℕ
  weight : ℕ → ℕ → ℕ → ℕ → ℝ
  bias : ℕ → ℝ
  do_weight_norm : Bool
  do_actnorm : Bool
  actnorm : ActNorm.State

/-- `Conv2d.forward`: run the convolution; when `do_weight_norm` the source
calls `F.normalize(x, p=2, dim=0/2/3)` but never assigns the results, so the
tensor is unchanged; when `do_actnorm` the trailing ActNorm submodule is
applied with an absent accumulator. -/
def forward (training : Bool) (s : State) (x : Tensor4) :
    Option (State × Tensor4) :=
  let y := conv2d s.in_channels s.out_channels s.kh s.kw s.ph s.pw s.weight s.bias x
  let _discarded : Option (Tensor4 × Tensor4 × Tensor4) :=
    if s.do_weight_norm then
      some (normalizeDim0 y, normalizeDim2 y, normalizeDim3 y)
    else none
  if s.do_actnorm then
    (ActNorm.forward training s.actnorm y none false).map
      (fun r => ({ s with actnorm := r.1 }, r.2.1))
  else some (s, y)

end Conv2dW

namespace Invertible1x1Conv

/-- `Invertible1x1Conv` state: the square channel-mixing weight matrix.
(The `lu_decomposed=True` configuration raises `NotImplementedError` at
construction and therefore never produces a state.) -/
structure State where
  num_channels : ℕ
  weight : Matrix (Fin num_channels) (Fin num_channels) ℝ

/-- Read the weight matrix as a total function on ℕ indices. -/
def wfun (s : State) (M : Matrix (Fin s.num_channels) (Fin s.num_channels) ℝ) :
    ℕ → ℕ → ℝ := fun a b =>
  if hab : a < s.num_channels ∧ b < s.num_channels then M ⟨a, hab.1⟩ ⟨b, hab.2⟩
  else 0

/-- `F.conv2d` with a `(C, C, 1, 1)` kernel: a per-pixel matrix multiply
across channels. -/
def conv1x1 (C : ℕ) (w : ℕ → ℕ → ℝ) (x : Tensor4) : Tensor4 :=
  { x with
    c := C
    data := fun b co i j => ∑ ci ∈ Finset.range C, w co ci * x.data b ci i j }

/-- `Invertible1x1Conv.forward`: the source computes
`logdet_factor = x.shape[1] * x.shape[2]` — the CHANNEL count times the
HEIGHT of an NCHW tensor — although its comment says `# H * W`; then
`dlogdet = log|det(weight)| * logdet_factor`, convolves with the weight
(forward, accumulator `+= dlogdet`) or its inverse (reverse,
accumulator `-= dlogdet`). -/
def forward (s : State) (x : Tensor4) (logdet : LogDet) (reverse : Bool) :
    Tensor4 × LogDet :=
  let logdet_factor : ℝ := (x.c : ℝ) * (x.h : ℝ)
  let dlogdet : ℝ := Real.log |s.weight.det| * logdet_factor
  if reverse then
    (conv1x1 s.num_channels (wfun s s.weight⁻¹) x,
      logdet.map (fun L => fun b => L b - dlogdet))
  else
    (conv1x1 s.num_channels (wfun s s.weight) x,
      logdet.map (fun L => fun b => L b + dlogdet))

end Invertible1x1Conv

namespace Permutation2d

/-- `Permutation2d` state: the channel count and the index table.  The
default table is the reversed identity; with `shuffle=True` it is a random
permutation, so theorems quantify over any table that permutes the range. -/
structure State where
  num_channels : ℕ
  indices : ℕ → ℕ

/-- The default (no shuffle) index table: the reversed identity over the
channels, `indices[i] = C - 1 - i`. -/
def init (num_channels : ℕ) : State :=
  { num_channels := num_channels
    indices := fun i => num_channels - 1 - i }

/-- The constructor loop building the inverse table from a zero-filled array:
`for i in range(C): indices_inverse[indices[i]] = i`. -/
def indices_inverse (s : State) : ℕ → ℕ :=
  (List.range s.num_channels).foldl
    (fun f i => Function.update f (s.indices i) i) (fun _ => 0)

/-- `Permutation2d.forward`: index the channel axis with `indices`
(forward) or with `indices_inverse` (reverse).  `none` models the rank-4
assertion, which always holds for a `Tensor4`. -/
def forward (s : State) (x : Tensor4) (reverse : Bool) : Tensor4 :=
  if reverse then
    { x with data := fun b ch i j => x.data b (indices_inverse s ch) i j }
  else
    { x with data := fun b ch i j => x.data b (s.indices ch) i j }

end Permutation2d

namespace GaussianDiag

/-- `GaussianDiag.logps`: elementwise diagonal-Gaussian log-density. -/
def logps (mean logs x : Tensor4) : Tensor4 :=
  { x with data := fun b ch i j =>
      -0.5 * (Real.log (2 * Real.pi) + 2 * logs.data b ch i j +
        (x.data b ch i j - mean.data b ch i j) ^ 2 /
          Real.exp (2 * logs.data b ch i j)) }

/-- `GaussianDiag.logp`: `logps` summed over every non-batch axis. -/
def logp (mean logs x : Tensor4) : ℕ → ℝ :=
  reduce_sum_123 (logps mean logs x)

/-- `GaussianDiag.sample`: `mean + exp(logs) * eps` where `eps` is the
standard-normal draw, passed explicitly here so the model is deterministic. -/
def sample (mean logs eps : Tensor4) : Tensor4 :=
  { mean with data := fun b ch i j =>
      mean.data b ch i j + Real.exp (logs.data b ch i j) * eps.data b ch i j }

end GaussianDiag

namespace Split2d

/-- `Split2d` state: the channel count and the zero-convolution mapping
`num_channels // 2` channels to `num_channels` channels. -/
structure State where
  num_channels : ℕ
  conv2d_zeros : Conv2dZeros.State

/-- `Split2d.__init__`: a freshly constructed `Conv2dZeros(C // 2, C)`. -/
def init (num_channels : ℕ) : State :=
  { num_channels := num_channels
    conv2d_zeros := Conv2dZeros.init (num_channels / 2) num_channels }

/-- `Split2d.prior`: run the zero-convolution and split its output channels
by parity: even channels (`h[:, 0::2]`) are the mean, odd channels
(`h[:, 1::2]`) are the log-scales. -/
def prior (s : State) (z : Tensor4) : Tensor4 × Tensor4 :=
  let hh := Conv2dZeros.forward s.conv2d_zeros z
  ({ hh with c := (hh.c + 1) / 2, data := fun b ch i j => hh.data b (2 * ch) i j },
   { hh with c := hh.c / 2, data := fun b ch i j => hh.data b (2 * ch + 1) i j })

/-- `torch.cat((a, b), dim=1)`: channel concatenation. -/
def catChannels (a b : Tensor4) : Tensor4 :=
  { a with
    c := a.c + b.c
    data := fun bt ch i j =>
      if ch < a.c then a.data bt ch i j else b.data bt (ch - a.c) i j }

/-- `Split2d.forward`: the non-reverse branch of the source reads
`input.shape[1]` where `input` is the Python BUILTIN function (the parameter
is named `x`), so it raises `AttributeError` on every call — modelled by
`none`.  The reverse branch recomputes `(mean, logs)` from the retained
half, samples a second half with noise `eps`, concatenates, and returns the
accumulator untouched. -/
def forward (s : State) (x : Tensor4) (logdet : LogDet) (reverse : Bool)
    (eps : Tensor4) : Option (Tensor4 × LogDet) :=
  if reverse then
    let ml := prior s x
    let z2 := GaussianDiag.sample ml.1 ml.2 eps
    some (catChannels x z2, logdet)
  else none

end Split2d

namespace Squeeze2d

/-- `Squeeze2d.squeeze`: asserts `factor >= 1`; factor 1 is the identity;
otherwise asserts that height and width are divisible by the factor and
reorganizes each `factor × factor` spatial block into `factor²` channels
(the `view`–`permute([0,1,3,5,2,4])`–`view` pipeline of the source, written
as index arithmetic).  `none` models assertion failure. -/
def squeeze (x : Tensor4) (factor : ℕ) : Option Tensor4 :=
  if factor = 0 then none
  else if factor = 1 then some x
  else if x.h % factor = 0 ∧ x.w % factor = 0 then
    some { n := x.n
           c := x.c * factor * factor
           h := x.h / factor
           w := x.w / factor
           data := fun b ch i j =>
             x.data b (ch / (factor * factor))
               (i * factor + (ch / factor) % factor)
               (j * factor + ch % factor) }
  else none

/-- `Squeeze2d.unsqueeze`: asserts `factor >= 1`; factor 1 is the identity;
otherwise asserts `nc >= 4 and nc % 4 == 0` and spreads each group of
`factor²` channels back over a `factor × factor` spatial block (the
`view`–`permute(0,1,4,2,5,3)`–`view` pipeline of the source).  `none` models
assertion failure. -/
def unsqueeze (x : Tensor4) (factor : ℕ) : Option Tensor4 :=
  if factor = 0 then none
  else if factor = 1 then some x
  else if 4 ≤ x.c ∧ x.c % 4 = 0 then
    some { n := x.n
           c := x.c / (factor * factor)
           h := x.h * factor
           w := x.w * factor
           data := fun b ch i j =>
             x.data b (ch * (factor * factor) + (i % factor) * factor + j % factor)
               (i / factor) (j / factor) }
  else none

/-- `Squeeze2d.forward`: squeeze (forward) or unsqueeze (reverse) with the
configured factor; the accumulator is returned untouched. -/
def forward (factor : ℕ) (x : Tensor4) (logdet : LogDet) (reverse : Bool) :
    Option (Tensor4 × LogDet) :=
  (if reverse then unsqueeze x factor else squeeze x factor).map (fun y => (y, logdet))

end Squeeze2d

/-! ## Concrete test fixtures -/

/-- A (1, 4, 2, 2) all-zero tensor. -/
def xC2 : Tensor4 := ⟨1, 4, 2, 2, fun _ _ _ _ => 0⟩

/-- A (1, 2, 1, 1) all-one tensor. -/
def xC4 : Tensor4 := ⟨1, 2, 1, 1, fun _ _ _ _ => 1⟩

/-- A (1, 1, 3, 3) all-zero tensor: both spatial sides divisible by 3. -/
def xC7 : Tensor4 := ⟨1, 1, 3, 3, fun _ _ _ _ => 0⟩

/-- A (1, 2, 3, 4) all-zero tensor: C = 2, H = 3, W = 4 all distinct. -/
def xC1 : Tensor4 := ⟨1, 2, 3, 4, fun _ _ _ _ => 0⟩

/-- A 2×2 mixing matrix with determinant `e`, so `log|det| = 1`. -/
def wC1 : Matrix (Fin 2) (Fin 2) ℝ := Matrix.of ![![Real.exp 1, 0], ![0, 1]]

/-- An `Invertible1x1Conv` over 2 channels with weight `wC1`. -/
def sC1 : Invertible1x1Conv.State := ⟨2, wC1⟩

/-! ## Claim theorems -/

/-- Claim C10: `Split2d.forward` with `reverse=True` returns the accumulator
argument unchanged (present or absent): no Gaussian log-density term is
subtracted in the reverse direction. -/
theorem C10_split2d_reverse_preserves_logdet (s : Split2d.State) (x : Tensor4)
    (logdet : LogDet) (eps : Tensor4) :
    (Split2d.forward s x logdet true eps).map Prod.snd = some logdet := rfl

/-- Claim C2 (code bug): `Split2d.forward` with `reverse=False` does not
split its declared argument `x`; the source reads the Python builtin
`input`, so the call raises (modelled by `none`) on every input — here
evaluated on a valid (1, 4, 2, 2) tensor with a present accumulator. -/
theorem C2_split2d_forward_raises :
    Split2d.forward (Split2d.init 4) xC2 (some fun _ => 0) false xC2 = none := rfl

/-- Claim C8: immediately after construction, `Conv2dZeros.forward` and
`LinearZeros.forward` return an all-zero result for every input, because
weight, bias, and logs all start at zero. -/
theorem C8_zero_layers_output_zero :
    (∀ (cin cout : ℕ) (x : Tensor4) (b ch i j : ℕ),
        (Conv2dZeros.forward (Conv2dZeros.init cin cout) x).data b ch i j = 0) ∧
    (∀ (fi fo : ℕ) (v : ℕ → ℝ) (o : ℕ),
        LinearZeros.forward (LinearZeros.init fi fo) v o = 0) := by
  constructor
  · intro cin cout x b ch i j
    simp [Conv2dZeros.forward, Conv2dZeros.init, conv2d]
  · intro fi fo v o
    simp [LinearZeros.forward, LinearZeros.init]

/-- Claim C4, counterexample: `Split2d.forward` is one of the transform
layers, yet called with an absent accumulator (and `reverse=False`) on a
valid (1, 2, 1, 1) input it raises instead of succeeding with an absent
accumulator. -/
theorem C4_split2d_forward_none_logdet_fails :
    Split2d.forward (Split2d.init 2) xC4 none false xC4 = none := rfl

/-- Claim C7, counterexample: the factor 3 divides both spatial sides of a
(1, 1, 3, 3) tensor, yet `unsqueeze(squeeze(x, 3), 3)` is an assertion
failure (`nc % 4 == 0` fails on 9 channels), not `x`. -/
theorem C7_factor3_roundtrip_fails :
    (Squeeze2d.squeeze xC7 3).bind (fun y => Squeeze2d.unsqueeze y 3) = none ∧
    3 ∣ xC7.h ∧ 3 ∣ xC7.w := ⟨rfl, by decide, by decide⟩

/-- Claim C1 (code bug): on a (1, 2, 3, 4) input with `log|det(W)| = 1`,
`Invertible1x1Conv.forward` (non-reverse) adds `6 = C*H` to the accumulator
(the source computes `x.shape[1] * x.shape[2]`), not the claimed
`H*W*log|det(W)| = 12`. -/
theorem C1_inv1x1_logdet_factor_bug :
    (Invertible1x1Conv.forward sC1 xC1 (some fun _ => 0) false).2 =
      some (fun _ => (6 : ℝ)) ∧
    (6 : ℝ) ≠ (xC1.h : ℝ) * (xC1.w : ℝ) * Real.log |sC1.weight.det| := by
  have hdet : sC1.weight.det = Real.exp 1 := by
    show (Matrix.of ![![Real.exp 1, 0], ![0, 1]]).det = Real.exp 1
    simp [Matrix.det_fin_two_of]
  have hlog : Real.log |sC1.weight.det| = 1 := by
    rw [hdet, abs_of_pos (Real.exp_pos 1), Real.log_exp]
  constructor
  · show some _ = some _
    congr 1
    funext b
    show (0 : ℝ) + Real.log |sC1.weight.det| * ((xC1.c : ℝ) * (xC1.h : ℝ)) = 6
    rw [hlog]
    norm_num [xC1]
  · rw [hlog]
    norm_num [xC1]

/-- A `Conv2d` wrapper instance with `do_weightnorm=True`, `do_actnorm=False`,
kernel size 1, SAME padding (hence padding 0), unit weight. -/
def sC5 : Conv2dW.State :=
  { in_channels := 1
    out_channels := 1
    kh := 1
    kw := 1
    ph := 0
    pw := 0
    weight := fun _ _ _ _ => 1
    bias := fun _ => 0
    do_weight_norm := true
    do_actnorm := false
    actnorm := ActNorm.init 1 1 3 false }

/-- A (1, 1, 1, 1) tensor holding the value 3. -/
def xC5 : Tensor4 := ⟨1, 1, 1, 1, fun _ _ _ _ => 3⟩

/-- The raw convolution output of `sC5` on `xC5`. -/
def rawC5 : Tensor4 := conv2d 1 1 1 1 0 0 (fun _ _ _ _ => 1) (fun _ => 0) xC5

/-- Claim C5 (code bug): with `do_weightnorm=True` the wrapper returns the
RAW convolution output (the `F.normalize` results are computed and
discarded in the source), which differs from the batch-axis-normalized
tensor the claim describes: the raw entry is 3, its normalization is 1. -/
theorem C5_weightnorm_output_not_normalized :
    Conv2dW.forward false sC5 xC5 = some (sC5, rawC5) ∧
    rawC5.data 0 0 0 0 = 3 ∧
    (normalizeDim0 rawC5).data 0 0 0 0 = 1 ∧
    (3 : ℝ) ≠ 1 := by
  have hraw : rawC5.data 0 0 0 0 = 3 := by
    simp [rawC5, conv2d, padRead, xC5]
  refine ⟨rfl, hraw, ?_, by norm_num⟩
  have hsum : (∑ k ∈ Finset.range rawC5.n, (rawC5.data k 0 0 0) ^ 2) = 9 := by
    have hn : rawC5.n = 1 := rfl
    rw [hn, Finset.sum_range_one, hraw]
    norm_num
  show rawC5.data 0 0 0 0 /
      max (Real.sqrt (∑ k ∈ Finset.range rawC5.n, (rawC5.data k 0 0 0) ^ 2)) 1e-12 = 1
  rw [hraw, hsum, show (9 : ℝ) = 3 ^ 2 by norm_num,
    Real.sqrt_sq (by norm_num : (0 : ℝ) ≤ 3)]
  rw [max_eq_left (by norm_num)]
  norm_num

/-- A fresh single-channel ActNorm state. -/
def sC3 : ActNorm.State := ActNorm.init 1 1 3 false

/-- A (1, 1, 1, 1) all-one tensor. -/
def xC3 : Tensor4 := ⟨1, 1, 1, 1, fun _ _ _ _ => 1⟩

/-- Claim C3, counterexample: a first forward call in non-training mode
leaves the whole state (parameters AND latches) untouched, and then a
SUBSEQUENT forward call, made in training mode, rewrites `bias` from that
batch (0 becomes -1): the parameters are not frozen after the first call. -/
theorem C3_later_training_call_modifies_bias :
    (ActNorm.forward false sC3 xC3 none false).map Prod.fst = some sC3 ∧
    (ActNorm.forward true sC3 xC3 none false).map (fun r => r.1.bias 0) =
      some (-1 : ℝ) ∧
    sC3.bias 0 = 0 ∧ (-1 : ℝ) ≠ 0 := by
  refine ⟨?_, ?_, rfl, by norm_num⟩
  · rfl
  · show some _ = some _
    congr 1
    show -(reduce_mean_023 xC3 0) = -1
    simp [reduce_mean_023, xC3]

/-- Claim C3, amended: non-training calls never modify the state at all (but
they also leave the latches unset), and once both latches are set no call —
training or not — modifies `bias`, `logs`, or the latches. -/
theorem C3_amended_init_latch (training : Bool) (s : ActNorm.State) (x : Tensor4)
    (logdet : LogDet) (reverse : Bool) (hc : x.c = s.num_channels) :
    (training = false →
      (ActNorm.forward training s x logdet reverse).map Prod.fst = some s) ∧
    (s.bias_inited = true → s.logs_inited = true →
      (ActNorm.forward training s x logdet reverse).map
          (fun r => (r.1.bias, r.1.logs, r.1.bias_inited, r.1.logs_inited)) =
        some (s.bias, s.logs, true, true)) := by
  constructor
  · rintro rfl
    cases reverse <;>
      simp [ActNorm.forward, ActNorm.actnorm_center, ActNorm.actnorm_scale,
        ActNorm.initialize_bias, ActNorm.initialize_logs, hc]
  · intro hb hl
    cases reverse <;>
      simp [ActNorm.forward, ActNorm.actnorm_center, ActNorm.actnorm_scale,
        hb, hl, hc]

/-- A (1, 2, 1, 1) all-zero tensor for the C3 witness. -/
def xW3 : Tensor4 := ⟨1, 2, 1, 1, fun _ _ _ _ => 0⟩

/-- A two-channel ActNorm state whose latches are already set. -/
def sW3 : ActNorm.State :=
  { ActNorm.init 2 1 3 false with bias_inited := true, logs_inited := true }

/-- Witness for the amended C3 theorem: on a concrete latched state and a
concrete training-mode call, the parameters and latches are unchanged. -/
theorem C3_amended_init_latch_witness :
    (ActNorm.forward true sW3 xW3 none false).map
        (fun r => (r.1.bias, r.1.logs, r.1.bias_inited, r.1.logs_inited)) =
      some (sW3.bias, sW3.logs, true, true) :=
  (C3_amended_init_latch true sW3 xW3 none false rfl).2 rfl rfl

/-- Claim C4, amended: ActNorm, Invertible1x1Conv and Squeeze2d forwards,
and the reverse path of Split2d, tolerate an absent accumulator: whenever
they return at all the returned accumulator is absent, valid ActNorm and
non-reverse Squeeze2d inputs always succeed, and Split2d reverse always
succeeds — but Split2d with `reverse=False` raises instead (see the
counterexample). -/
theorem C4_amended_absent_accumulator :
    (∀ (training : Bool) (s : ActNorm.State) (x : Tensor4) (reverse : Bool),
        x.c = s.num_channels →
        (ActNorm.forward training s x none reverse).map (fun r => r.2.2) =
          some none) ∧
    (∀ (s : Invertible1x1Conv.State) (x : Tensor4) (reverse : Bool),
        (Invertible1x1Conv.forward s x none reverse).2 = none) ∧
    (∀ (factor : ℕ) (x : Tensor4) (reverse : Bool) (r : Tensor4 × LogDet),
        Squeeze2d.forward factor x none reverse = some r → r.2 = none) ∧
    (∀ (factor : ℕ) (x : Tensor4), 1 ≤ factor →
        x.h % factor = 0 → x.w % factor = 0 →
        (Squeeze2d.forward factor x none false).map Prod.snd = some none) ∧
    (∀ (s : Split2d.State) (x : Tensor4) (eps : Tensor4),
        (Split2d.forward s x none true eps).map Prod.snd = some none) := by
  refine ⟨?_, ?_, ?_, ?_, ?_⟩
  · intro training s x reverse hc
    cases reverse <;>
      simp [ActNorm.forward, ActNorm.actnorm_center, ActNorm.actnorm_scale, hc]
  · intro s x reverse
    cases reverse <;> simp [Invertible1x1Conv.forward]
  · intro factor x reverse r hr
    simp only [Squeeze2d.forward] at hr
    rcases hy : (if reverse then Squeeze2d.unsqueeze x factor
        else Squeeze2d.squeeze x factor) with _ | y
    · rw [hy] at hr
      cases hr
    · rw [hy, Option.map_some'] at hr
      cases hr
      rfl
  · intro factor x h1 hh hw
    match factor, h1 with
    | 1, _ => rfl
    | (n + 2), _ =>
        simp [Squeeze2d.forward, Squeeze2d.squeeze, hh, hw]
  · intro s x eps
    rfl

/-- Claim C6: applying `ActNorm.forward` and then its reverse (with no
external parameter mutation between the calls) returns the original tensor
and the original accumulator exactly: the two log-determinant contributions
cancel.  This holds in every latch/training configuration, including the
one where the first call performs the data-dependent initialization. -/
theorem C6_actnorm_roundtrip (training : Bool) (s : ActNorm.State) (x : Tensor4)
    (logdet : LogDet) (hc : x.c = s.num_channels) :
    ((ActNorm.forward training s x logdet false).bind
        (fun r => ActNorm.forward training r.1 r.2.1 r.2.2 true)).map
      (fun r => (r.2.1, r.2.2)) = some (x, logdet) := by
  obtain ⟨C, sc, lf, bv, bi, li, B, Lg⟩ := s
  obtain ⟨N, Cx, H, W, d⟩ := x
  simp only at hc
  subst hc
  cases bi <;> cases li <;> cases training <;> cases logdet <;>
    simp [ActNorm.forward, ActNorm.actnorm_center, ActNorm.actnorm_scale,
      ActNorm.initialize_bias, ActNorm.initialize_logs]
  all_goals
    funext b ch i j
    rw [mul_assoc, ← Real.exp_add, add_neg_cancel, Real.exp_zero, mul_one]
    ring

/-- A (1, 3, 1, 1) tensor holding the value 2 for the C6 witness. -/
def xW6 : Tensor4 := ⟨1, 3, 1, 1, fun _ _ _ _ => 2⟩

/-- Witness for the C6 theorem: a concrete three-channel roundtrip with an
absent accumulator returns the input tensor and the absent accumulator. -/
theorem C6_actnorm_roundtrip_witness :
    ((ActNorm.forward false (ActNorm.init 3 1 3 false) xW6 none false).bind
        (fun r => ActNorm.forward false r.1 r.2.1 r.2.2 true)).map
      (fun r => (r.2.1, r.2.2)) = some (xW6, none) :=
  C6_actnorm_roundtrip false (ActNorm.init 3 1 3 false) xW6 none rfl

/-- In the squeezed channel index `ch * f² + (i % f) * f + j % f` the block
offset is smaller than `f²`. -/
lemma block_offset_lt (f i j : ℕ) (hf : 0 < f) :
    (i % f) * f + j % f < f * f := by
  have hi : i % f < f := Nat.mod_lt i hf
  have hj : j % f < f := Nat.mod_lt j hf
  calc (i % f) * f + j % f < (i % f) * f + f := by omega
    _ = (i % f + 1) * f := by ring
    _ ≤ f * f := Nat.mul_le_mul_right f (by omega)

/-- Decoding the squeezed channel index recovers the original channel and
the two within-block offsets. -/
lemma squeeze_index_eq (f ch i j : ℕ) (hf : 0 < f) :
    (ch * (f * f) + (i % f) * f + j % f) / (f * f) = ch ∧
    ((ch * (f * f) + (i % f) * f + j % f) / f) % f = i % f ∧
    (ch * (f * f) + (i % f) * f + j % f) % f = j % f := by
  have hff : 0 < f * f := Nat.mul_pos hf hf
  have hlt : (i % f) * f + j % f < f * f := block_offset_lt f i j hf
  refine ⟨?_, ?_, ?_⟩
  · have h2 : ch * (f * f) + (i % f) * f + j % f =
        (i % f) * f + j % f + ch * (f * f) := by ring
    rw [h2, Nat.add_mul_div_right _ _ hff, Nat.div_eq_of_lt hlt, zero_add]
  · have h2 : ch * (f * f) + (i % f) * f + j % f =
        j % f + (ch * f + i % f) * f := by ring
    rw [h2, Nat.add_mul_div_right _ _ hf, Nat.div_eq_of_lt (Nat.mod_lt j hf),
      zero_add, add_comm (ch * f) (i % f), Nat.add_mul_mod_self_right,
      Nat.mod_mod_of_dvd i (dvd_refl f)]
  · have h2 : ch * (f * f) + (i % f) * f + j % f =
        j % f + (ch * f + i % f) * f := by ring
    rw [h2, Nat.add_mul_mod_self_right, Nat.mod_mod_of_dvd j (dvd_refl f)]

/-- Claim C7, amended: for every factor `f ≥ 1` dividing both spatial sides
such that additionally `f = 1` or the squeezed channel count `C·f²` is at
least 4 and divisible by 4 (the `unsqueeze` assertion), the
squeeze-then-unsqueeze roundtrip returns the input exactly; and squeeze and
unsqueeze with factor 1 are both the identity. -/
theorem C7_amended_squeeze_roundtrip (x : Tensor4) (factor : ℕ)
    (h1 : 1 ≤ factor) (hh : factor ∣ x.h) (hw : factor ∣ x.w)
    (hc : factor = 1 ∨ (4 ≤ x.c * factor * factor ∧ x.c * factor * factor % 4 = 0)) :
    (Squeeze2d.squeeze x factor).bind (fun y => Squeeze2d.unsqueeze y factor) =
      some x ∧
    Squeeze2d.squeeze x 1 = some x ∧ Squeeze2d.unsqueeze x 1 = some x := by
  refine ⟨?_, rfl, rfl⟩
  rcases eq_or_lt_of_le h1 with hone | htwo
  · rw [← hone]
    rfl
  · have hf0 : factor ≠ 0 := by omega
    have hf1 : factor ≠ 1 := by omega
    have hfpos : 0 < factor := by omega
    rcases hc with hc | hc
    · omega
    have hhm : x.h % factor = 0 := by
      obtain ⟨k, hk⟩ := hh
      rw [hk]
      exact Nat.mul_mod_right factor k
    have hwm : x.w % factor = 0 := by
      obtain ⟨k, hk⟩ := hw
      rw [hk]
      exact Nat.mul_mod_right factor k
    rw [Squeeze2d.squeeze, if_neg hf0, if_neg hf1, if_pos ⟨hhm, hwm⟩,
      Option.some_bind', Squeeze2d.unsqueeze, if_neg hf0, if_neg hf1]
    rw [if_pos (by exact hc)]
    refine congrArg some (Tensor4.ext rfl ?_ ?_ ?_ ?_)
    · show x.c * factor * factor / (factor * factor) = x.c
      rw [mul_assoc, Nat.mul_div_cancel _ (by positivity)]
    · show x.h / factor * factor = x.h
      exact Nat.div_mul_cancel hh
    · show x.w / factor * factor = x.w
      exact Nat.div_mul_cancel hw
    · funext b ch i j
      show x.data b
          ((ch * (factor * factor) + (i % factor) * factor + j % factor) /
            (factor * factor))
          (i / factor * factor +
            ((ch * (factor * factor) + (i % factor) * factor + j % factor) / factor)
              % factor)
          (j / factor * factor +
            (ch * (factor * factor) + (i % factor) * factor + j % factor) % factor) =
        x.data b ch i j
      obtain ⟨e1, e2, e3⟩ := squeeze_index_eq factor ch i j hfpos
      rw [e1, e2, e3]
      have ei : i / factor * factor + i % factor = i := by
        rw [mul_comm]
        exact Nat.div_add_mod i factor
      have ej : j / factor * factor + j % factor = j := by
        rw [mul_comm]
        exact Nat.div_add_mod j factor
      rw [ei, ej]

/-- A (2, 1, 4, 2) tensor with a non-constant pattern for the C7 witness. -/
def xW7 : Tensor4 := ⟨2, 1, 4, 2, fun b ch i j => b + 2 * ch + 3 * i + 5 * j⟩

/-- Witness for the amended C7 theorem: the factor-2 roundtrip on a concrete
(2, 1, 4, 2) tensor returns the tensor exactly. -/
theorem C7_amended_squeeze_roundtrip_witness :
    (Squeeze2d.squeeze xW7 2).bind (fun y => Squeeze2d.unsqueeze y 2) = some xW7 :=
  (C7_amended_squeeze_roundtrip xW7 2 (by norm_num) (by decide) (by decide)
    (Or.inr (by decide))).1

/-- If no element of the list maps to the key `k`, the inverse-table fold
leaves the value at `k` unchanged. -/
lemma foldl_update_ne (ind : ℕ → ℕ) (t : List ℕ) (g : ℕ → ℕ) (k : ℕ)
    (h : ∀ a ∈ t, ind a ≠ k) :
    (t.foldl (fun f a => Function.update f (ind a) a) g) k = g k := by
  induction t generalizing g with
  | nil => rfl
  | cons a t ih =>
      rw [List.foldl_cons, ih _ (fun b hb => h b (List.mem_cons_of_mem a hb))]
      exact Function.update_noteq (fun hk => h a (List.mem_cons_self a t) hk.symm) _ _

/-- If `i` is in the list and is the only list element mapping to `ind i`,
the inverse-table fold stores `i` at key `ind i`. -/
lemma foldl_update_eq (ind : ℕ → ℕ) (t : List ℕ) (g : ℕ → ℕ) (i : ℕ)
    (hmem : i ∈ t) (hinj : ∀ a ∈ t, ind a = ind i → a = i) :
    (t.foldl (fun f a => Function.update f (ind a) a) g) (ind i) = i := by
  induction t generalizing g with
  | nil => cases hmem
  | cons a t ih =>
      rw [List.foldl_cons]
      by_cases hit : i ∈ t
      · exact ih _ hit (fun b hb => hinj b (List.mem_cons_of_mem a hb))
      · have hai : a = i := by
          rcases List.mem_cons.mp hmem with h | h
          · exact h.symm
          · exact absurd h hit
        subst hai
        rw [foldl_update_ne ind t _ (ind a) ?hne]
        · exact Function.update_same (ind a) a g
        case hne =>
          intro b hb hbk
          exact hit ((hinj b (List.mem_cons_of_mem a hb) hbk) ▸ hb)

/-- Claim C9: for any index table that permutes the channel range (the
default reversed identity and any shuffle both qualify), the precomputed
inverse table satisfies `indices[indices_inverse[i]] = i` on every channel,
and applying forward with `reverse=True` then `reverse=False` (or vice
versa) returns the input tensor exactly (shapes are preserved on the nose,
and every in-range entry is restored). -/
theorem C9_permutation_roundtrip (s : Permutation2d.State)
    (hlt : ∀ i < s.num_channels, s.indices i < s.num_channels)
    (hinj : ∀ i < s.num_channels, ∀ j < s.num_channels,
      s.indices i = s.indices j → i = j) :
    (∀ ch < s.num_channels,
        s.indices (Permutation2d.indices_inverse s ch) = ch) ∧
    (∀ (x : Tensor4) (b ch i j : ℕ), ch < s.num_channels →
        (Permutation2d.forward s (Permutation2d.forward s x true) false).data b ch i j
            = x.data b ch i j ∧
        (Permutation2d.forward s (Permutation2d.forward s x false) true).data b ch i j
            = x.data b ch i j) ∧
    (∀ (x : Tensor4) (rev : Bool),
        (Permutation2d.forward s x rev).n = x.n ∧
        (Permutation2d.forward s x rev).c = x.c ∧
        (Permutation2d.forward s x rev).h = x.h ∧
        (Permutation2d.forward s x rev).w = x.w) := by
  have hinv : ∀ i < s.num_channels,
      Permutation2d.indices_inverse s (s.indices i) = i := by
    intro i hi
    exact foldl_update_eq s.indices (List.range s.num_channels) _ i
      (List.mem_range.mpr hi)
      (fun a ha hai => hinj a (List.mem_range.mp ha) i hi hai)
  have hsurj : ∀ ch, ch < s.num_channels → ∃ i, i < s.num_channels ∧ s.indices i = ch := by
    intro ch hch
    have einj : Function.Injective
        (fun i : Fin s.num_channels => (⟨s.indices i, hlt i i.2⟩ : Fin s.num_channels)) := by
      intro a b hab
      exact Fin.ext (hinj a.1 a.2 b.1 b.2 (congrArg Fin.val hab))
    have esurj := Finite.injective_iff_surjective.mp einj
    obtain ⟨i, hi⟩ := esurj ⟨ch, hch⟩
    exact ⟨i.1, i.2, congrArg Fin.val hi⟩
  have hfwd : ∀ ch < s.num_channels,
      s.indices (Permutation2d.indices_inverse s ch) = ch := by
    intro ch hch
    obtain ⟨i, hi, rfl⟩ := hsurj ch hch
    rw [hinv i hi]
  refine ⟨hfwd, ?_, fun x rev => by cases rev <;> exact ⟨rfl, rfl, rfl, rfl⟩⟩
  intro x b ch i j hch
  constructor
  · show x.data b (Permutation2d.indices_inverse s (s.indices ch)) i j = x.data b ch i j
    rw [hinv ch hch]
  · show x.data b (s.indices (Permutation2d.indices_inverse s ch)) i j = x.data b ch i j
    rw [hfwd ch hch]

/-- Witness for the C9 theorem: for the default four-channel table
(reversed identity), `indices[indices_inverse[2]] = 2` and the
reverse-then-forward composition restores a concrete tensor entry. -/
theorem C9_permutation_roundtrip_witness :
    (Permutation2d.init 4).indices
        (Permutation2d.indices_inverse (Permutation2d.init 4) 2) = 2 ∧
    (Permutation2d.forward (Permutation2d.init 4)
        (Permutation2d.forward (Permutation2d.init 4) xC2 true) false).data 0 1 0 0
      = xC2.data 0 1 0 0 :=
  ⟨(C9_permutation_roundtrip (Permutation2d.init 4) (by decide) (by decide)).1
      2 (by decide),
   ((C9_permutation_roundtrip (Permutation2d.init 4) (by decide) (by decide)).2.1
      xC2 0 1 0 0 (by decide)).1⟩

/-- A (1, 1, 2, 2) all-zero tensor for the C4 witness. -/
def xW4 : Tensor4 := ⟨1, 1, 2, 2, fun _ _ _ _ => 0⟩

/-- Witness for the amended C4 theorem: a concrete ActNorm call and a
concrete factor-2 squeeze both succeed with an absent accumulator. -/
theorem C4_amended_absent_accumulator_witness :
    (ActNorm.forward false (ActNorm.init 2 1 3 false) xC4 none false).map
        (fun r => r.2.2) = some none ∧
    (Squeeze2d.forward 2 xW4 none false).map Prod.snd = some none :=
  ⟨C4_amended_absent_accumulator.1 false (ActNorm.init 2 1 3 false) xC4 false rfl,
   C4_amended_absent_accumulator.2.2.2.1 2 xW4 (by norm_num) (by decide) (by decide)⟩

end Glow
